import Mathlib

/-!
Verification development for the NR Radio Environment Map (REM) helper
(`src/helper/nr-radio-environment-map-helper.h`).

The repository ships only the header (declarations and the `RemPoint` /
`RemDevice` / `PropagationModels` struct definitions); the implementation
file `nr-radio-environment-map-helper.cc` is not part of the sources at
hand.  Definitions embedding behaviour that lives in that missing
implementation are therefore modelled from the specification (spec.md);
each such definition carries a doc comment starting `Modelled from the
spec:`.  The structs that do appear in the header are embedded from the
source directly.

Conventions of the shallow embedding: linear power quantities, grid
coordinates and per-bin values are rationals (exact arithmetic, decidable
equality); decibel values, which involve `log10`, live in `ℝ` via
`Real.logb 10`.  A power spectral density (PSD) over `n` frequency bins is
a function `Fin n → ℚ`.
-/

namespace NrRem

/-- A 3-component vector, embedding ns-3's `Vector` as used by the REM
helper for positions and bearing directions. -/
structure Vector3 where
  x : ℚ
  y : ℚ
  z : ℚ
deriving DecidableEq, Repr

/-- Embedded from the source (header, struct `RemPoint`): coordinates of a
REM point together with the averaged SNR/SINR results in dB.  The member
initialisers `pos {0,0,0}`, `avgSnrDb {0}`, `avgSinrDb {0}` become Lean
field defaults. -/
structure RemPoint where
  pos : Vector3 := ⟨0, 0, 0⟩
  avgSnrDb : ℝ := 0
  avgSinrDb : ℝ := 0

/-- A `RemPoint` built with the defaulted constructor, as
`CreateListOfRemPoints` does before any computation has run. -/
def defaultRemPoint : RemPoint := {}

/-- Modelled from the spec: the map configuration surface (bounding box,
per-axis resolutions, z-height); the attribute plumbing of the missing
implementation file is reduced to a plain record. -/
structure MapConfig where
  xMin : ℚ
  xMax : ℚ
  xRes : ℕ
  yMin : ℚ
  yMax : ℚ
  yRes : ℕ
  z : ℚ
deriving DecidableEq, Repr

/-- Modelled from the spec (§3, §4.1): the step along an axis,
`(max − min) / (res − 1)` when `res > 1`. -/
def axisStep (mn mx : ℚ) (res : ℕ) : ℚ := (mx - mn) / ((res : ℚ) - 1)

/-- Modelled from the spec (§4.1 Grid Builder): for each axis, if the
resolution is 1 emit the minimum value only; otherwise emit `res` evenly
spaced values including both endpoints.  The implementation of
`CreateListOfRemPoints` is not under `src/`. -/
def axisValues (mn mx : ℚ) (res : ℕ) : List ℚ :=
  if res = 1 then [mn]
  else (List.range res).map (fun k : ℕ => mn + (k : ℚ) * axisStep mn mx res)

/-- Modelled from the spec (§4.1): the full point sequence is the Cartesian
product (row-major over y then x) at fixed height z; each produced point
carries the defaulted result fields. -/
def CreateListOfRemPoints (c : MapConfig) : List RemPoint :=
  ((axisValues c.yMin c.yMax c.yRes).map (fun y =>
    (axisValues c.xMin c.xMax c.xRes).map (fun x =>
      { pos := ⟨x, y, c.z⟩ : RemPoint }))).flatten

/-- Modelled from the spec (§4.1, §7): the only failure mode of grid
construction is an invalid configuration, `res = 0` being rejected as a
`ConfigurationError` that aborts before any point computation starts. -/
inductive RemError where
  | ConfigurationError
deriving DecidableEq, Repr

/-- Modelled from the spec (§4.1, §7): `CreateRem` validates the grid
resolutions and either aborts with a configuration error (before building
any point) or deterministically builds the grid. -/
def CreateRem (c : MapConfig) : Except RemError (List RemPoint) :=
  if c.xRes = 0 ∨ c.yRes = 0 then .error .ConfigurationError
  else .ok (CreateListOfRemPoints c)

/-! ### Signal & metric calculator (spec §4.5) -/

/-- Modelled from the spec: the maximum of a list of values, as used by
`GetMaxValue (const std::list<double>&)` whose implementation is not under
`src/`; the empty list (never produced by the calculator) maps to 0. -/
def GetMaxValue : List ℚ → ℚ
  | [] => 0
  | [a] => a
  | a :: b :: rest => max a (GetMaxValue (b :: rest))

/-- Modelled from the spec (§4.5 step 3): per-frequency-bin SNR, useful
signal power divided by the noise floor power of that bin. -/
def snrPerBin (n : ℕ) (useful noise : Fin n → ℚ) : Fin n → ℚ :=
  fun i => useful i / noise i

/-- Modelled from the spec (§4.5 step 4): per-frequency-bin SINR, useful
signal power divided by noise floor plus the sum of the interference
powers in that bin. -/
def sinrPerBin (n : ℕ) (useful : Fin n → ℚ) (interference : List (Fin n → ℚ))
    (noise : Fin n → ℚ) : Fin n → ℚ :=
  fun i => useful i / (noise i + (interference.map (fun p => p i)).sum)

/-- The per-bin values of a PSD-shaped quantity, listed in bin order. -/
def binList (n : ℕ) (v : Fin n → ℚ) : List ℚ := (List.finRange n).map v

/-- Modelled from the spec (§4.5 step 3): the wideband SNR is the maximum
bin value of the per-bin SNR (implementation `CalculateSnr` /
`CalculateMaxSnr` not under `src/`). -/
def CalculateSnr (n : ℕ) (useful noise : Fin n → ℚ) : ℚ :=
  GetMaxValue (binList n (snrPerBin n useful noise))

/-- Modelled from the spec (§4.5 step 4): the wideband SINR for a given
useful signal and interference list is the maximum bin value of the
per-bin SINR (implementation `CalculateSinr` not under `src/`). -/
def CalculateSinr (n : ℕ) (useful : Fin n → ℚ) (interference : List (Fin n → ℚ))
    (noise : Fin n → ℚ) : ℚ :=
  GetMaxValue (binList n (sinrPerBin n useful interference noise))

/-- Modelled from the spec (§4.5 step 2): the total received power of one
transmitter at the sample point, integrated across frequency bins. -/
def totalPower (n : ℕ) (p : Fin n → ℚ) : ℚ := ∑ i, p i

/-- The all-zero PSD, used as the out-of-range default when indexing the
received-power list. -/
def zeroPsd (n : ℕ) : Fin n → ℚ := fun _ => 0

/-- Modelled from the spec (§4.5 step 2): the index of the best server,
the transmitter whose total received power at the point is highest (first
such index when tied). -/
def bestServerIdx (n : ℕ) (receivedPowerList : List (Fin n → ℚ)) : ℕ :=
  (List.range receivedPowerList.length).foldl
    (fun best j =>
      if totalPower n (receivedPowerList.getD j (zeroPsd n)) >
          totalPower n (receivedPowerList.getD best (zeroPsd n)) then j else best)
    0

/-- Modelled from the spec (§4.5 step 2, `CalculateMaxSinr` not under
`src/`): split the received-power list into the best server (useful
signal) and all remaining transmitters (interference) and compute the
wideband SINR. -/
def CalculateMaxSinr (n : ℕ) (receivedPowerList : List (Fin n → ℚ))
    (noise : Fin n → ℚ) : ℚ :=
  let b := bestServerIdx n receivedPowerList
  CalculateSinr n (receivedPowerList.getD b (zeroPsd n))
    (receivedPowerList.eraseIdx b) noise

/-- Modelled from the spec (§4.5 step 3, `CalculateMaxSnr` not under
`src/`): the wideband SNR of the best server at the point. -/
def CalculateMaxSnr (n : ℕ) (receivedPowerList : List (Fin n → ℚ))
    (noise : Fin n → ℚ) : ℚ :=
  CalculateSnr n
    (receivedPowerList.getD (bestServerIdx n receivedPowerList) (zeroPsd n)) noise

/-- The two map modes of the helper (header, enum `RemMode`). -/
inductive RemMode where
  | BEAM_SHAPE
  | COVERAGE_AREA
deriving DecidableEq, Repr

/-- Modelled from the spec (§4.4, §4.5): both `CalcBeamShapeRemMap` and
`CalcCoverageAreaRemMap` (neither under `src/`) feed the per-point
received-power list into the same SINR computation; the modes differ only
in how the antennas were aimed when the powers were produced. -/
def pointSinrInMode (mode : RemMode) (n : ℕ) (receivedPowerList : List (Fin n → ℚ))
    (noise : Fin n → ℚ) : ℚ :=
  match mode with
  | .BEAM_SHAPE => CalculateMaxSinr n receivedPowerList noise
  | .COVERAGE_AREA => CalculateMaxSinr n receivedPowerList noise

/-! ### Averaging pipeline (spec §4.5 step 5) -/

/-- Modelled from the spec (§4.5): the per-iteration wideband samples of a
point, one linear-domain value per iteration of the configured `N`. -/
def iterationSamples (numOfIterationsToAverage : ℕ) (sample : ℕ → ℚ) : List ℚ :=
  (List.range numOfIterationsToAverage).map sample

/-- Modelled from the spec (§4.5 step 5): the mean of the linear-domain
samples, the accumulated sum divided by the number of iterations. -/
def linearMean (samples : List ℚ) : ℚ := samples.sum / (samples.length : ℚ)

/-- Modelled from the spec (§4.5): the decibel conversion applied once to
the final linear average, `10·log10`. -/
noncomputable def toDb (linear : ℚ) : ℝ := 10 * Real.logb 10 (linear : ℝ)

/-- Modelled from the spec (§4.5, `CalcBeamShapeRemMap` storing the result
on the point): after the `N` iterations the averaged linear SNR and SINR
samples are converted to dB exactly once and stored on the REM point. -/
noncomputable def storeAverages (pt : RemPoint) (snrSamples sinrSamples : List ℚ) :
    RemPoint :=
  { pt with
    avgSnrDb := toDb (linearMean snrSamples)
    avgSinrDb := toDb (linearMean sinrSamples) }

/-! ### Degenerate samples and the map writer (spec §4.5 failure modes, §7) -/

/-- A decibel-domain sample as the writer may receive it: a finite value,
or one of the non-finite IEEE outcomes that `10·log10` of a non-positive
linear power would produce. -/
inductive DbSample where
  | value (v : ℝ)
  | negInfinity
  | notANumber

/-- Modelled from the spec (§4.5 failure modes): converting a linear power
to dB yields the negative-infinity equivalent when the linear power is not
positive (zero total received power), and the finite `10·log10` value
otherwise. -/
noncomputable def linearToDbSample (linear : ℚ) : DbSample :=
  if 0 < linear then .value (10 * Real.logb 10 (linear : ℝ)) else .negInfinity

/-- Modelled from the spec (§7): the sentinel very-low dB value the map
writer substitutes for a degenerate sample; the spec fixes only that it is
finite and very low, so a representative constant is used. -/
def sentinelDb : ℝ := -1000000

/-- Modelled from the spec (§4.5 failure modes, §7, `PrintRemToFile` not
under `src/`): the map writer emits a finite real for every sample,
replacing NaN/Infinity by the sentinel very-low dB value. -/
noncomputable def writeDbSample : DbSample → ℝ
  | .value v => v
  | .negInfinity => sentinelDb
  | .notANumber => sentinelDb

/-! ### Per-point channel realizer (spec §4.3, `CreateTemporalPropagationModels`) -/

/-- Modelled from the spec (§3, §4.3): one `(point, iteration)` pair's
triple of freshly constructed model instances — propagation-loss,
spectrum-loss and channel-condition — identified by allocation ids. -/
structure PropagationModels where
  propagationLossId : ℕ
  spectrumLossId : ℕ
  channelConditionId : ℕ
deriving DecidableEq, Repr

/-- The allocation ids of one model triple, listed. -/
def modelIds (m : PropagationModels) : List ℕ :=
  [m.propagationLossId, m.spectrumLossId, m.channelConditionId]

/-- Modelled from the spec (§4.3, `CreateTemporalPropagationModels` not
under `src/`): each call allocates three brand-new instances; allocation
is modelled by a monotone counter, so one call starting at `s` yields ids
`s, s+1, s+2` and hands the counter `s+3` to the next call. -/
def CreateTemporalPropagationModels (next : ℕ) : PropagationModels × ℕ :=
  (⟨next, next + 1, next + 2⟩, next + 3)

/-- Modelled from the spec (§4.3): the sequence of model triples allocated
by `k` successive `(point, iteration)` computations, starting from counter
state `s`. -/
def allocTrace : ℕ → ℕ → List PropagationModels
  | 0, _ => []
  | k + 1, s =>
      (CreateTemporalPropagationModels s).1 ::
        allocTrace k (CreateTemporalPropagationModels s).2

/-- Modelled from the spec (§2, §4.3): a build over `numPoints` grid
points with `numIter` averaging iterations performs one model allocation
per `(point, iteration)` pair. -/
def buildModelTrace (numPoints numIter : ℕ) : List PropagationModels :=
  allocTrace (numPoints * numIter) 0

/-- All model-instance ids allocated along a trace. -/
def traceIds (trace : List PropagationModels) : List ℕ :=
  (trace.map modelIds).flatten

/-! ### Beamforming configurator and probe devices (spec §3, §4.4) -/

/-- Modelled from the spec (§3): the antenna-bearing state of a probe (or
real) device.  `none` is the neutral quasi-omni configuration; `some d`
is a direct-path beamforming vector pointing along direction `d`.  The
spec's unit normalisation of the bearing is a positive rescaling that does
not change where the antenna points; the direction is stored unnormalised
because unit length needs real square roots. -/
structure RemDevice where
  pos : Vector3
  bearing : Option Vector3
deriving DecidableEq, Repr

/-- The displacement direction from `a` to `b`. -/
def dirTo (a b : Vector3) : Vector3 := ⟨b.x - a.x, b.y - a.y, b.z - a.z⟩

/-- Modelled from the spec (§4.4, `ConfigureQuasiOmniBfv` not under
`src/`): reset the device's antenna to the neutral quasi-omni
beamforming vector. -/
def ConfigureQuasiOmniBfv (device : RemDevice) : RemDevice :=
  { device with bearing := none }

/-- Modelled from the spec (§4.4, `ConfigureDirectPathBfv` not under
`src/`): aim the device's antenna directly at a target position. -/
def ConfigureDirectPathBfv (device : RemDevice) (target : Vector3) : RemDevice :=
  { device with bearing := some (dirTo device.pos target) }

/-- Modelled from the spec (§4.4 CoverageArea): aim every probe
transmitter at the current sample point. -/
def aimAllAt (ptds : List RemDevice) (p : Vector3) : List RemDevice :=
  ptds.map (fun d => ConfigureDirectPathBfv d p)

/-- Modelled from the spec (§4.4): reset every probe transmitter to the
quasi-omni configuration between points. -/
def resetAll (ptds : List RemDevice) : List RemDevice :=
  ptds.map ConfigureQuasiOmniBfv

/-- Modelled from the spec (§2, §4.4): the state threaded through a
CoverageArea build — the untouched real network devices, the shared probe
transmitter copies whose bearings are mutated per point, and the results
accumulated so far. -/
structure CoverageBuildState where
  realDevs : List RemDevice
  ptds : List RemDevice
  results : List ℚ
deriving DecidableEq, Repr

/-- Modelled from the spec (§4.4, `CalcCoverageAreaRemMap` not under
`src/`): process one sample point — aim all probe transmitters at the
point, compute the point's metric from the aimed devices via the supplied
signal-and-metric function, then reset the shared probe transmitters to
quasi-omni before the next point.  The real devices are read-only copies
and are not touched. -/
def coverageStep (sample : List RemDevice → Vector3 → ℚ)
    (s : CoverageBuildState) (p : Vector3) : CoverageBuildState :=
  let aimed := aimAllAt s.ptds p
  { realDevs := s.realDevs
    ptds := resetAll aimed
    results := s.results ++ [sample aimed p] }

/-- Modelled from the spec (§4.4): the CoverageArea map build, folding the
per-point step over the grid points in order. -/
def CalcCoverageAreaRemMap (sample : List RemDevice → Vector3 → ℚ)
    (s : CoverageBuildState) (points : List Vector3) : CoverageBuildState :=
  points.foldl (coverageStep sample) s

/-! ### Orchestrator lifecycle (spec §4.7) -/

/-- Modelled from the spec (§4.7): the one-shot lifecycle states of the
engine. -/
inductive EngineState where
  | Configured
  | AwaitingSettleDelay
  | Building
  | Finalized
deriving DecidableEq, Repr

/-- Modelled from the spec (§4.7, `CreateRem` / `DelayedInstall` /
`Finalize` not under `src/`): the lifecycle transition function.
`Finalized` is terminal: advancing it leaves it unchanged, so re-entry
never occurs. -/
def advance : EngineState → EngineState
  | .Configured => .AwaitingSettleDelay
  | .AwaitingSettleDelay => .Building
  | .Building => .Finalized
  | .Finalized => .Finalized

/-- Modelled from the spec (§4.7): a full engine run.  At the
`AwaitingSettleDelay → Building` transition the real deployment's devices
are snapshotted from the network timeline at `snapTime`; the whole map is
then computed from that snapshot alone. -/
def engineRun (sample : List RemDevice → Vector3 → ℚ)
    (timeline : ℕ → List RemDevice) (snapTime : ℕ) (points : List Vector3) :
    List ℚ :=
  (CalcCoverageAreaRemMap sample
    ⟨timeline snapTime, timeline snapTime, []⟩ points).results

/-! ### Helper lemmas -/

/-- The maximum of a nonempty list is one of its elements. -/
theorem GetMaxValue_mem : ∀ l : List ℚ, l ≠ [] → GetMaxValue l ∈ l := by
  intro l
  induction l with
  | nil => intro h; exact absurd rfl h
  | cons a t ih =>
    intro _
    cases t with
    | nil => simp [GetMaxValue]
    | cons b r =>
      rcases max_choice a (GetMaxValue (b :: r)) with h1 | h1
      · rw [show GetMaxValue (a :: b :: r) = max a (GetMaxValue (b :: r)) from rfl, h1]
        exact List.mem_cons_self a (b :: r)
      · rw [show GetMaxValue (a :: b :: r) = max a (GetMaxValue (b :: r)) from rfl, h1]
        exact List.mem_cons_of_mem a (ih (by simp))

/-- Every element of a list is bounded by its maximum. -/
theorem le_GetMaxValue : ∀ l : List ℚ, ∀ x ∈ l, x ≤ GetMaxValue l := by
  intro l
  induction l with
  | nil => intro x hx; cases hx
  | cons a t ih =>
    intro x hx
    cases t with
    | nil =>
      rw [List.mem_singleton] at hx
      rw [hx]
      exact le_of_eq rfl
    | cons b r =>
      rw [show GetMaxValue (a :: b :: r) = max a (GetMaxValue (b :: r)) from rfl]
      rcases List.mem_cons.mp hx with h1 | h1
      · exact h1 ▸ le_max_left _ _
      · exact le_trans (ih x h1) (le_max_right _ _)

/-- The maximum of a list of zeros is zero. -/
theorem GetMaxValue_of_all_zero : ∀ l : List ℚ, (∀ x ∈ l, x = 0) → GetMaxValue l = 0 := by
  intro l
  induction l with
  | nil => intro _; rfl
  | cons a t ih =>
    intro h
    cases t with
    | nil => exact h a (List.mem_singleton.mpr rfl)
    | cons b r =>
      rw [show GetMaxValue (a :: b :: r) = max a (GetMaxValue (b :: r)) from rfl]
      rw [h a (List.mem_cons_self _ _), ih (fun x hx => h x (List.mem_cons_of_mem a hx))]
      exact max_self 0

/-- A nonneg-valued list summing to zero is identically zero. -/
theorem eq_zero_of_sum_eq_zero : ∀ l : List ℚ, (∀ x ∈ l, 0 ≤ x) → l.sum = 0 →
    ∀ x ∈ l, x = 0 := by
  intro l
  induction l with
  | nil => intro _ _ x hx; cases hx
  | cons a t ih =>
    intro hnn hz x hx
    have hta : 0 ≤ a := hnn a (List.mem_cons_self _ _)
    have htt : 0 ≤ t.sum := List.sum_nonneg (fun y hy => hnn y (List.mem_cons_of_mem a hy))
    have hsum : a + t.sum = 0 := by simpa using hz
    have ha : a = 0 := by linarith
    have hts : t.sum = 0 := by linarith
    rcases List.mem_cons.mp hx with h1 | h1
    · exact h1 ▸ ha
    · exact ih (fun y hy => hnn y (List.mem_cons_of_mem a hy)) hts x h1

/-- The mean of `K` copies of `S` is `S`. -/
theorem linearMean_replicate (K : ℕ) (S : ℚ) (h : K ≠ 0) :
    linearMean (List.replicate K S) = S := by
  rw [linearMean, List.sum_replicate, List.length_replicate, nsmul_eq_mul]
  exact mul_div_cancel_left₀ S (by exact_mod_cast h)

/-! ### C4 — grid builder -/

/-- C4: along each axis the grid builder emits exactly the minimum value
when the resolution is 1; otherwise it emits `res` evenly spaced values,
an arithmetic sequence of step `(max − min)/(res − 1)` whose first value
is `min` and whose last value is `max`. -/
theorem grid_axis_spec (mn mx : ℚ) (res : ℕ) :
    (res = 1 → axisValues mn mx res = [mn]) ∧
    (2 ≤ res →
      (axisValues mn mx res).length = res ∧
      (∀ i, i < res →
        (axisValues mn mx res).getD i 0 = mn + (i : ℚ) * axisStep mn mx res) ∧
      (axisValues mn mx res).getD 0 0 = mn ∧
      (axisValues mn mx res).getD (res - 1) 0 = mx) := by
  constructor
  · intro h1
    rw [h1, axisValues, if_pos rfl]
  · intro h2
    have hne : res ≠ 1 := by omega
    have hlen : (axisValues mn mx res).length = res := by
      rw [axisValues, if_neg hne, List.length_map, List.length_range]
    have hget : ∀ i, i < res →
        (axisValues mn mx res).getD i 0 = mn + (i : ℚ) * axisStep mn mx res := by
      intro i hi
      have hi' : i < (axisValues mn mx res).length := by rw [hlen]; exact hi
      rw [List.getD_eq_getElem _ _ hi']
      simp only [axisValues, if_neg hne, List.getElem_map, List.getElem_range]
    refine ⟨hlen, hget, ?_, ?_⟩
    · rw [hget 0 (by omega)]
      push_cast
      ring
    · rw [hget (res - 1) (by omega)]
      have hcast : ((res - 1 : ℕ) : ℚ) = (res : ℚ) - 1 := by
        have : 1 ≤ res := by omega
        push_cast [this]
        ring
      have hne0 : (res : ℚ) - 1 ≠ 0 := by
        have : (2 : ℚ) ≤ (res : ℚ) := by exact_mod_cast h2
        intro hcontra
        have : (res : ℚ) = 1 := by linarith
        linarith
      rw [hcast, axisStep]
      field_simp

/-- Witness for C4 at `min = 0`, `max = 10`, `res = 3`. -/
theorem grid_axis_spec_witness :
    (axisValues 0 10 3).length = 3 ∧ (axisValues 0 10 3).getD 0 0 = 0 ∧
      (axisValues 0 10 3).getD 2 0 = 10 := by
  have h := (grid_axis_spec 0 10 3).2 (by decide)
  exact ⟨h.1, h.2.2.1, h.2.2.2⟩

/-! ### C8 — configuration validation -/

/-- C8: a map configuration with an axis resolution of 0 is rejected as a
configuration error before any point is built; for every other
configuration the grid is built deterministically with no further failure
modes. -/
theorem createRem_rejects_zero_resolution (c : MapConfig) :
    (c.xRes = 0 ∨ c.yRes = 0 → CreateRem c = .error .ConfigurationError) ∧
    (c.xRes ≠ 0 → c.yRes ≠ 0 → CreateRem c = .ok (CreateListOfRemPoints c)) := by
  constructor
  · intro h
    rw [CreateRem, if_pos h]
  · intro hx hy
    rw [CreateRem, if_neg (by tauto)]

/-- Witness for C8: a configuration with `xRes = 0` aborts with a
configuration error. -/
theorem createRem_rejects_zero_resolution_witness :
    CreateRem ⟨0, 1, 0, 0, 1, 1, 0⟩ = .error .ConfigurationError :=
  (createRem_rejects_zero_resolution ⟨0, 1, 0, 0, 1, 1, 0⟩).1 (Or.inl rfl)

/-! ### C10 — default-initialised REM points -/

/-- C10: a freshly created `RemPoint` is default-initialised with position
`(0,0,0)` and `avgSnrDb = avgSinrDb = 0`, so an uncomputed point reports
exactly 0 dB — distinct from the very-low sentinel — and every point the
grid builder produces carries these 0 dB fields. -/
theorem remPoint_default_init (c : MapConfig) (pt : RemPoint)
    (hpt : pt ∈ CreateListOfRemPoints c) :
    defaultRemPoint.pos = ⟨0, 0, 0⟩ ∧ defaultRemPoint.avgSnrDb = 0 ∧
      defaultRemPoint.avgSinrDb = 0 ∧ defaultRemPoint.avgSnrDb ≠ sentinelDb ∧
      pt.avgSnrDb = 0 ∧ pt.avgSinrDb = 0 := by
  refine ⟨rfl, rfl, rfl, ?_, ?_, ?_⟩
  · rw [show defaultRemPoint.avgSnrDb = 0 from rfl, sentinelDb]
    norm_num
  · simp only [CreateListOfRemPoints, List.mem_flatten, List.mem_map] at hpt
    obtain ⟨l, ⟨y, -, rfl⟩, hl⟩ := hpt
    obtain ⟨x, -, rfl⟩ := List.mem_map.mp hl
    rfl
  · simp only [CreateListOfRemPoints, List.mem_flatten, List.mem_map] at hpt
    obtain ⟨l, ⟨y, -, rfl⟩, hl⟩ := hpt
    obtain ⟨x, -, rfl⟩ := List.mem_map.mp hl
    rfl

/-- Witness for C10 on a 1×1 grid at `(5, 7, 2)`. -/
theorem remPoint_default_init_witness :
    defaultRemPoint.avgSnrDb ≠ sentinelDb ∧
      (⟨⟨5, 7, 2⟩, 0, 0⟩ : RemPoint).avgSnrDb = 0 := by
  have h := remPoint_default_init ⟨5, 5, 1, 7, 7, 1, 2⟩ ⟨⟨5, 7, 2⟩, 0, 0⟩
    (by simp [CreateListOfRemPoints, axisValues])
  exact ⟨h.2.2.2.1, h.2.2.2.2.1⟩

/-! ### C1 — linear-domain averaging -/

/-- C1: the stored per-point result accumulates the per-iteration SNR and
SINR samples in the linear power domain and converts to decibels exactly
once at the end, `avgSnrDb = 10·log10(mean of the linear samples)`; in
particular averaging `K ≥ 1` iterations of an identical deterministic
linear value `S` yields `10·log10(S)`, independent of `K`. -/
theorem linear_domain_averaging (pt : RemPoint) (K : ℕ) (hK : 1 ≤ K) (S S2 : ℚ) :
    (∀ snrSamples sinrSamples : List ℚ,
      (storeAverages pt snrSamples sinrSamples).avgSnrDb =
          toDb (linearMean snrSamples) ∧
      (storeAverages pt snrSamples sinrSamples).avgSinrDb =
          toDb (linearMean sinrSamples)) ∧
    (storeAverages pt (iterationSamples K (fun _ => S))
        (iterationSamples K (fun _ => S2))).avgSnrDb =
      10 * Real.logb 10 ((S : ℚ) : ℝ) ∧
    (storeAverages pt (iterationSamples K (fun _ => S))
        (iterationSamples K (fun _ => S2))).avgSinrDb =
      10 * Real.logb 10 ((S2 : ℚ) : ℝ) := by
  have hrep : ∀ T : ℚ, iterationSamples K (fun _ => T) = List.replicate K T := by
    intro T
    simp [iterationSamples]
  refine ⟨fun a b => ⟨rfl, rfl⟩, ?_, ?_⟩
  · show toDb (linearMean (iterationSamples K (fun _ => S))) = _
    rw [hrep, linearMean_replicate K S (by omega), toDb]
  · show toDb (linearMean (iterationSamples K (fun _ => S2))) = _
    rw [hrep, linearMean_replicate K S2 (by omega), toDb]

/-- Witness for C1 at `K = 2`, `S = 3`, `S2 = 5`. -/
theorem linear_domain_averaging_witness :
    (storeAverages defaultRemPoint (iterationSamples 2 (fun _ => 3))
        (iterationSamples 2 (fun _ => 5))).avgSnrDb =
      10 * Real.logb 10 ((3 : ℚ) : ℝ) :=
  (linear_domain_averaging defaultRemPoint 2 (by decide) 3 5).2.1

/-! ### C2 — best-server selection -/

/-- C2: with two probe transmitters of deterministic received powers
`P1 > P2`, the SINR computation selects the stronger transmitter as the
useful signal and treats the other as interference, in both BeamShape and
CoverageArea modes. -/
theorem best_server_selection (mode : RemMode) (n : ℕ) (p1 p2 noise : Fin n → ℚ)
    (h : totalPower n p2 < totalPower n p1) :
    bestServerIdx n [p1, p2] = 0 ∧
    pointSinrInMode mode n [p1, p2] noise = CalculateSinr n p1 [p2] noise := by
  have hidx : bestServerIdx n [p1, p2] = 0 := by
    have hr : List.range ([p1, p2] : List (Fin n → ℚ)).length = [0, 1] := rfl
    rw [bestServerIdx, hr, List.foldl_cons, List.foldl_cons, List.foldl_nil]
    simp only [ite_self]
    rw [show ([p1, p2].getD 1 (zeroPsd n)) = p2 from rfl,
        show ([p1, p2].getD 0 (zeroPsd n)) = p1 from rfl]
    exact if_neg (lt_asymm h)
  refine ⟨hidx, ?_⟩
  cases mode with
  | BEAM_SHAPE =>
      show CalculateMaxSinr n [p1, p2] noise = _
      rw [CalculateMaxSinr]
      simp only [hidx]
      rfl
  | COVERAGE_AREA =>
      show CalculateMaxSinr n [p1, p2] noise = _
      rw [CalculateMaxSinr]
      simp only [hidx]
      rfl

/-- A single-bin PSD of linear power 4. -/
def psdStrong : Fin 1 → ℚ := fun _ => 4

/-- A single-bin PSD of linear power 1. -/
def psdWeak : Fin 1 → ℚ := fun _ => 1

/-- A single-bin noise floor of linear power 1. -/
def noiseOne : Fin 1 → ℚ := fun _ => 1

/-- Witness for C2 with powers 4 > 1 over one bin, BeamShape mode. -/
theorem best_server_selection_witness :
    pointSinrInMode RemMode.BEAM_SHAPE 1 [psdStrong, psdWeak] noiseOne =
      CalculateSinr 1 psdStrong [psdWeak] noiseOne :=
  (best_server_selection RemMode.BEAM_SHAPE 1 psdStrong psdWeak noiseOne
    (by norm_num [totalPower, psdWeak, psdStrong, Fin.sum_univ_one])).2

/-! ### C3 — wideband reduction takes the max over bins -/

/-- A two-bin useful-signal PSD with bins `2` and `6`. -/
def twoBinUseful : Fin 2 → ℚ := fun i => if (i : ℕ) = 0 then 2 else 6

/-- A two-bin noise floor with both bins `2`. -/
def twoBinNoise : Fin 2 → ℚ := fun _ => 2

/-- C3: the per-bin SNR and per-bin SINR are each reduced to a single
wideband value by taking the maximum over frequency bins (the result is a
bin value and bounds every bin value) — and not the mean, as the two-bin
example with per-bin SNRs `[1, 3]` shows (max 3 vs mean 2). -/
theorem wideband_max_reduction (n : ℕ) (hn : 1 ≤ n) (useful noise : Fin n → ℚ)
    (interference : List (Fin n → ℚ)) :
    (CalculateSnr n useful noise ∈ binList n (snrPerBin n useful noise) ∧
      ∀ v ∈ binList n (snrPerBin n useful noise), v ≤ CalculateSnr n useful noise) ∧
    (CalculateSinr n useful interference noise ∈
        binList n (sinrPerBin n useful interference noise) ∧
      ∀ v ∈ binList n (sinrPerBin n useful interference noise),
        v ≤ CalculateSinr n useful interference noise) ∧
    CalculateSnr 2 twoBinUseful twoBinNoise ≠
      linearMean (binList 2 (snrPerBin 2 twoBinUseful twoBinNoise)) := by
  have hne : ∀ v : Fin n → ℚ, binList n v ≠ [] := by
    intro v hcon
    have hlen : (binList n v).length = n := by simp [binList]
    rw [hcon] at hlen
    simp at hlen
    omega
  refine ⟨⟨GetMaxValue_mem _ (hne _), le_GetMaxValue _⟩,
          ⟨GetMaxValue_mem _ (hne _), le_GetMaxValue _⟩, ?_⟩
  have hbin : binList 2 (snrPerBin 2 twoBinUseful twoBinNoise) =
      [snrPerBin 2 twoBinUseful twoBinNoise 0, snrPerBin 2 twoBinUseful twoBinNoise 1] :=
    rfl
  have hv0 : snrPerBin 2 twoBinUseful twoBinNoise 0 = 1 := by
    show (2 : ℚ) / 2 = 1
    norm_num
  have hv1 : snrPerBin 2 twoBinUseful twoBinNoise 1 = 3 := by
    show (6 : ℚ) / 2 = 3
    norm_num
  rw [show CalculateSnr 2 twoBinUseful twoBinNoise =
        GetMaxValue (binList 2 (snrPerBin 2 twoBinUseful twoBinNoise)) from rfl,
      hbin, hv0, hv1]
  rw [show GetMaxValue [(1 : ℚ), 3] = max 1 3 from rfl]
  rw [max_eq_right (by norm_num : (1 : ℚ) ≤ 3), linearMean]
  norm_num

/-- Witness for C3 at one bin (and the concrete two-bin max-vs-mean gap). -/
theorem wideband_max_reduction_witness :
    CalculateSnr 1 psdStrong noiseOne ∈ binList 1 (snrPerBin 1 psdStrong noiseOne) ∧
    CalculateSnr 2 twoBinUseful twoBinNoise ≠
      linearMean (binList 2 (snrPerBin 2 twoBinUseful twoBinNoise)) := by
  have h := wideband_max_reduction 1 (by decide) psdStrong noiseOne []
  exact ⟨h.1.1, h.2.2⟩

/-! ### C5 — fresh channel models per (point, iteration) -/

/-- One allocation run of `k` triples starting at counter `s` yields
exactly `k` triples. -/
theorem allocTrace_length (k s : ℕ) : (allocTrace k s).length = k := by
  induction k generalizing s with
  | zero => rfl
  | succ k ih => simp [allocTrace, ih]

/-- The ids allocated by `k` successive model-triple constructions
starting at `s` are exactly `s, s+1, …, s+3k−1`. -/
theorem traceIds_allocTrace (k s : ℕ) :
    traceIds (allocTrace k s) = List.range' s (3 * k) := by
  induction k generalizing s with
  | zero => simp [allocTrace, traceIds]
  | succ k ih =>
    have hcons : traceIds (allocTrace (k + 1) s) =
        [s, s + 1, s + 2] ++ traceIds (allocTrace k (s + 3)) := rfl
    rw [hcons, ih]
    have h3 : ([s, s + 1, s + 2] : List ℕ) = List.range' s 3 := rfl
    rw [h3, List.range'_append_1 s 3 (3 * k), Nat.mul_succ]

/-- C5: across a whole build of `numPoints` grid points with `numIter`
averaging iterations, each `(point, iteration)` pair gets its own freshly
constructed propagation-loss, spectrum-loss and channel-condition model
instances — one triple per pair, and no two model instances anywhere in
the build are aliased. -/
theorem fresh_models_per_point_iteration (numPoints numIter : ℕ) :
    (buildModelTrace numPoints numIter).length = numPoints * numIter ∧
    (traceIds (buildModelTrace numPoints numIter)).Nodup := by
  constructor
  · exact allocTrace_length _ 0
  · rw [buildModelTrace, traceIds_allocTrace]
    exact List.nodup_range' 0 (3 * (numPoints * numIter))

/-! ### C6 — transient antenna mutation in CoverageArea mode -/

/-- The real-device list is untouched by the whole CoverageArea fold. -/
theorem calcCoverage_realDevs (sample : List RemDevice → Vector3 → ℚ)
    (s : CoverageBuildState) (points : List Vector3) :
    (CalcCoverageAreaRemMap sample s points).realDevs = s.realDevs := by
  induction points generalizing s with
  | nil => rfl
  | cons p ps ih =>
    show (CalcCoverageAreaRemMap sample (coverageStep sample s p) ps).realDevs =
      s.realDevs
    rw [ih]
    rfl

/-- After a reset, every device in the list is at the neutral quasi-omni
bearing. -/
theorem resetAll_bearings (l : List RemDevice) :
    (resetAll l).map RemDevice.bearing = List.replicate l.length none := by
  induction l with
  | nil => rfl
  | cons d t ih =>
    simp only [resetAll, List.map_cons, List.length_cons, List.replicate_succ,
      ConfigureQuasiOmniBfv] at ih ⊢
    rw [ih]

/-- C6: in CoverageArea mode every probe transmitter is re-aimed at each
sample point (a direct-path bearing toward the point is assigned per
point), the mutation is transient (every probe transmitter is back at the
neutral quasi-omni bearing after each per-point step), and the real
network devices' bearings show no net change after the whole build. -/
theorem coverage_area_transient_bearings (sample : List RemDevice → Vector3 → ℚ)
    (s : CoverageBuildState) (points : List Vector3) (ptds : List RemDevice)
    (p : Vector3) :
    (aimAllAt ptds p).map RemDevice.bearing =
        ptds.map (fun d => some (dirTo d.pos p)) ∧
    ((coverageStep sample s p).ptds).map RemDevice.bearing =
        List.replicate s.ptds.length none ∧
    (CalcCoverageAreaRemMap sample s points).realDevs = s.realDevs := by
  refine ⟨?_, ?_, calcCoverage_realDevs sample s points⟩
  · simp [aimAllAt, ConfigureDirectPathBfv]
  · show (resetAll (aimAllAt s.ptds p)).map RemDevice.bearing = _
    rw [resetAll_bearings, aimAllAt, List.length_map]

/-! ### C7 — degenerate zero-power samples become a finite sentinel -/

/-- C7: at a sample point where the total received power from all probe
transmitters is zero, the computed linear SNR and SINR are zero, their dB
conversion is the negative-infinity equivalent, and the map writer emits
the finite very-low sentinel instead — and every written value is either
the finite `10·log10` of a positive linear power or that sentinel, so no
NaN/Infinity reaches the output. -/
theorem degenerate_sample_sentinel (n : ℕ) (receivedPowerList : List (Fin n → ℚ))
    (noise : Fin n → ℚ)
    (hnn : ∀ p ∈ receivedPowerList, ∀ i, 0 ≤ p i)
    (hzero : (receivedPowerList.map (totalPower n)).sum = 0) :
    linearToDbSample (CalculateMaxSinr n receivedPowerList noise) = .negInfinity ∧
    writeDbSample (linearToDbSample (CalculateMaxSinr n receivedPowerList noise)) =
        sentinelDb ∧
    linearToDbSample (CalculateMaxSnr n receivedPowerList noise) = .negInfinity ∧
    writeDbSample (linearToDbSample (CalculateMaxSnr n receivedPowerList noise)) =
        sentinelDb ∧
    (∀ x : ℚ, 0 < x ∨ writeDbSample (linearToDbSample x) = sentinelDb) := by
  have hptotal : ∀ p ∈ receivedPowerList, totalPower n p = 0 := by
    intro p hp
    refine eq_zero_of_sum_eq_zero (receivedPowerList.map (totalPower n)) ?_ hzero
      (totalPower n p) (List.mem_map.mpr ⟨p, hp, rfl⟩)
    intro x hx
    obtain ⟨q, hq, rfl⟩ := List.mem_map.mp hx
    exact Finset.sum_nonneg (fun i _ => hnn q hq i)
  have hpbin : ∀ p ∈ receivedPowerList, ∀ i, p i = 0 := by
    intro p hp i
    have := (Finset.sum_eq_zero_iff_of_nonneg
      (fun j _ => hnn p hp j)).mp (hptotal p hp) i (Finset.mem_univ i)
    exact this
  have husezero : ∀ i, receivedPowerList.getD (bestServerIdx n receivedPowerList)
      (zeroPsd n) i = 0 := by
    intro i
    by_cases hb : bestServerIdx n receivedPowerList < receivedPowerList.length
    · rw [List.getD_eq_getElem _ _ hb]
      exact hpbin _ (List.getElem_mem hb) i
    · rw [List.getD_eq_default _ _ (by omega)]
      rfl
  have hsinr : CalculateMaxSinr n receivedPowerList noise = 0 := by
    rw [CalculateMaxSinr]
    refine GetMaxValue_of_all_zero _ ?_
    intro x hx
    obtain ⟨i, -, rfl⟩ := List.mem_map.mp hx
    rw [sinrPerBin, husezero i, zero_div]
  have hsnr : CalculateMaxSnr n receivedPowerList noise = 0 := by
    rw [CalculateMaxSnr, CalculateSnr]
    refine GetMaxValue_of_all_zero _ ?_
    intro x hx
    obtain ⟨i, -, rfl⟩ := List.mem_map.mp hx
    rw [snrPerBin, husezero i, zero_div]
  have hdb0 : linearToDbSample 0 = .negInfinity := by
    rw [linearToDbSample, if_neg (lt_irrefl 0)]
  refine ⟨?_, ?_, ?_, ?_, ?_⟩
  · rw [hsinr]; exact hdb0
  · rw [hsinr, hdb0]; rfl
  · rw [hsnr]; exact hdb0
  · rw [hsnr, hdb0]; rfl
  · intro x
    by_cases hx : 0 < x
    · exact Or.inl hx
    · refine Or.inr ?_
      rw [linearToDbSample, if_neg hx]
      rfl

/-- Witness for C7: a single unreachable transmitter (all-zero PSD) over
one bin with unit noise writes the sentinel. -/
theorem degenerate_sample_sentinel_witness :
    writeDbSample (linearToDbSample (CalculateMaxSinr 1 [zeroPsd 1] noiseOne)) =
      sentinelDb :=
  (degenerate_sample_sentinel 1 [zeroPsd 1] noiseOne
    (by simp [zeroPsd])
    (by simp [totalPower, zeroPsd])).2.1

/-! ### C9 — one-shot lifecycle and snapshot isolation -/

/-- C9: the engine lifecycle is the one-shot chain
`Configured → AwaitingSettleDelay → Building → Finalized` with `Finalized`
terminal (re-entry never occurs, one engine instance produces exactly one
map), and the map is a function of the device snapshot taken when
`Building` starts: mutations to the real network after the snapshot are
never reflected. -/
theorem one_shot_lifecycle (k : ℕ) (sample : List RemDevice → Vector3 → ℚ)
    (t1 t2 : ℕ → List RemDevice) (snapTime : ℕ) (points : List Vector3)
    (hsnap : t1 snapTime = t2 snapTime) :
    advance .Finalized = .Finalized ∧
    advance^[3] .Configured = .Finalized ∧
    advance^[k + 3] .Configured = .Finalized ∧
    engineRun sample t1 snapTime points = engineRun sample t2 snapTime points := by
  refine ⟨rfl, rfl, ?_, ?_⟩
  · induction k with
    | zero => rfl
    | succ k ih =>
      rw [show k + 1 + 3 = (k + 3) + 1 from rfl, Function.iterate_succ_apply', ih]
      rfl
  · rw [engineRun, engineRun, hsnap]

/-- Witness for C9 with identical timelines, two extra steps past
finalization, and an empty grid. -/
theorem one_shot_lifecycle_witness :
    advance^[2 + 3] EngineState.Configured = EngineState.Finalized ∧
    engineRun (fun _ _ => 0) (fun _ => []) 0 [] =
      engineRun (fun _ _ => 0) (fun _ => []) 0 [] := by
  exact ⟨(one_shot_lifecycle 2 (fun _ _ => 0) (fun _ => []) (fun _ => []) 0 [] rfl).2.2.1,
    (one_shot_lifecycle 2 (fun _ _ => 0) (fun _ => []) (fun _ => []) 0 [] rfl).2.2.2⟩

end NrRem
